import Mathlib

/-!
PaymentForm.js: a verification development.

Shallow embedding of `src/app/NewPaymentCardSetup/PaymentForm.js`:

* `totalPrice` (the `useMemo` over `cartItems`), over an exact model of the
  binary64 arithmetic used by `parseFloat`, `+` and `toFixed(2)`;
* `handleChange` (object spread with a computed key);
* `handleSubmit` (validate, tokenize, post, navigate, with the `try`/`catch`
  made explicit as an `Except` value and the side effects as a trace).

Definitions come first, theorems after.
-/

namespace PaymentForm

/-! ## Numbers: non-negative binary64 values -/

/-- A non-negative JavaScript Number: the finite value `m * 2 ^ e`, or `+Infinity`.
Only non-negative values arise in `totalPrice` for carts with non-negative prices. -/
inductive Number where
  | finite (m : Nat) (e : Int)
  | infinity
deriving DecidableEq, Repr

/-- Nearest integer to `num / den`, ties to the even integer. -/
def roundHalfEven (num den : Nat) : Nat :=
  let q := num / den
  let r := num % den
  if 2 * r < den then q
  else if den < 2 * r then q + 1
  else if q % 2 = 0 then q else q + 1

/-- Position of the highest set bit of `n` (0 for `n < 2`), by halving. -/
def log2Fuel : Nat → Nat → Nat
  | 0, _ => 0
  | fuel + 1, n => if n < 2 then 0 else log2Fuel fuel (n / 2) + 1

/-- The integer `E` with `2 ^ E ≤ n / d < 2 ^ (E + 1)`, for positive `n` and `d`. -/
def floorLog2 (n d : Nat) : Int :=
  let est : Int := (log2Fuel n n : Int) - (log2Fuel d d : Int)
  if d * 2 ^ est.toNat ≤ n * 2 ^ (-est).toNat then est else est - 1

/-- The Number value for the non-negative rational `n / d`: round to nearest, ties to even,
with a 53-bit significand, least exponent `-1074` (subnormals) and overflow to `+Infinity`
from `2 ^ 1024` on. -/
def roundToDouble (n d : Nat) : Number :=
  if n = 0 then .finite 0 0
  else
    let q : Int := max (floorLog2 n d) (-1022) - 52
    let m := roundHalfEven (n * 2 ^ (-q).toNat) (d * 2 ^ q.toNat)
    if 971 < q ∨ (q = 971 ∧ m = 2 ^ 53) then .infinity else .finite m q

/-- The `+` of two non-negative Numbers: the exact sum, rounded. -/
def Number.add : Number → Number → Number
  | .finite m₁ e₁, .finite m₂ e₂ =>
    let e := min e₁ e₂
    let m := m₁ * 2 ^ (e₁ - e).toNat + m₂ * 2 ^ (e₂ - e).toNat
    roundToDouble (m * 2 ^ e.toNat) (2 ^ (-e).toNat)
  | _, _ => .infinity

/-- A non-negative decimal numeral: `mantissa / 10 ^ scale`, so that the text
`19.99` is `⟨1999, 2⟩` and `5.00` is `⟨500, 2⟩`. -/
structure Decimal where
  mantissa : Nat
  scale : Nat
deriving DecidableEq, Repr

/-- A cart line item, read through `item?.price`: `none` is an absent or falsy price
(which `|| 0` replaces by `0`), `some d` a price whose text is the decimal numeral `d`. -/
structure CartItem where
  price : Option Decimal
deriving DecidableEq, Repr

/-- `parseFloat(item?.price || 0)`: the Number value of the price. -/
def parseFloat (item : CartItem) : Number :=
  match item.price with
  | none => .finite 0 0
  | some d => roundToDouble d.mantissa (10 ^ d.scale)

/-- The digits of `toFixed(2)` for the integer `n` of its step "let n be an integer for which
n / 100 - x is as close to zero as possible": the decimal digits of `n`, left-padded with
zeros to three characters, with a point before the last two. -/
def toFixedDigits (n : Nat) : String :=
  let m := Nat.toDigits 10 n
  let m := if m.length ≤ 2 then List.replicate (3 - m.length) '0' ++ m else m
  let k := m.length
  String.mk (m.take (k - 2) ++ '.' :: m.drop (k - 2))

/-- `x.toFixed(2)`. A non-finite `x` and an `x ≥ 10 ^ 21` are rendered by the built-in
`Number::toString`, passed in as `numberToString`; otherwise `n` is the integer nearest to
`100 * x` (the larger one on a tie). -/
def toFixed2 (numberToString : Number → String) : Number → String
  | .infinity => numberToString .infinity
  | .finite m e =>
    let num := m * 2 ^ e.toNat
    let den := 2 ^ (-e).toNat
    if 10 ^ 21 * den ≤ num then numberToString (.finite m e)
    else toFixedDigits ((200 * num + den) / (2 * den))

/-- Line 28-30: `cartItems?.reduce((acc, item) => acc + parseFloat(item?.price || 0), 0).toFixed(2)`;
`none` is `undefined`, for a nullish `cartItems`. -/
def totalPrice (numberToString : Number → String) (cartItems : Option (List CartItem)) :
    Option String :=
  cartItems.map fun items =>
    toFixed2 numberToString (items.foldl (fun acc item => acc.add (parseFloat item)) (.finite 0 0))

/-! ## The form state -/

/-- The `formData` object: a JavaScript object with string values, read by key
(`none` is `undefined`, for a key the object does not have). -/
abbrev FormData := String → Option String

/-- Line 17-25: the initial `formData`, every one of the seven fields the empty string. -/
def initialFormData : FormData := fun key =>
  if key ∈ ["name", "email", "addressLine1", "city", "postalCode", "country", "phone"]
  then some "" else none

/-- The three `useState` cells of the component. -/
structure State where
  error : Option String
  loading : Bool
  formData : FormData

/-- Line 15-25: the state on mount. -/
def initialState : State := { error := none, loading := false, formData := initialFormData }

/-- The `useState` setter `setError`. -/
def setError (st : State) (value : Option String) : State := { st with error := value }

/-- The `useState` setter `setLoading`. -/
def setLoading (st : State) (value : Bool) : State := { st with loading := value }

/-- The `useState` setter `setFormData`. -/
def setFormData (st : State) (value : FormData) : State := { st with formData := value }

/-- The change event of an input: `e.target.name` and `e.target.value`. -/
structure ChangeEvent where
  name : String
  value : String
deriving DecidableEq, Repr

/-- Line 32-34: `setFormData({ ...formData, [e.target.name]: e.target.value })`. The spread
copies every key of `formData` into a fresh object, then the computed key is written. -/
def handleChange (st : State) (e : ChangeEvent) : State :=
  setFormData st (fun key => if key = e.name then some e.value else st.formData key)

/-- Line 186: the text of the error region, `{error && <div>{error}</div>}`: nothing is
rendered when `error` is `null` or the empty string. -/
def errorRegion (st : State) : String :=
  match st.error with
  | none => ""
  | some message => if message = "" then "" else message

/-- Line 183: `disabled={!stripe || loading}` on the submit button. -/
def buttonDisabled (stripeLoaded : Bool) (st : State) : Bool := !stripeLoaded || st.loading

/-! ## The validation schema (Yup) -/

/-- The tests the schema puts on a string field. -/
inductive StringTest where
  | required (message : String)
  | email (message : String)
deriving DecidableEq, Repr

/-- The message a test fails with. -/
def StringTest.message : StringTest → String
  | .required message => message
  | .email message => message

/-- Whether a value passes a test. `required` on a string schema rejects `undefined` and
the empty string (the value is not trimmed); `email` matches the value against the
library's e-mail pattern `isEmail`, and lets `undefined` and the empty string pass. -/
def StringTest.passes (isEmail : String → Bool) : StringTest → Option String → Bool
  | .required _, value =>
    match value with
    | none => false
    | some s => decide (s ≠ "")
  | .email _, value =>
    match value with
    | none => true
    | some s => decide (s = "") || isEmail s

/-- Line 42-50: the object schema, a list of keys with the tests of each, in source order. -/
def schema : List (String × List StringTest) :=
  [ ("name", [.required "Name is required"]),
    ("email", [.email "Invalid email", .required "Email is required"]),
    ("addressLine1", [.required "Address Line 1 is required"]),
    ("city", [.required "City is required"]),
    ("postalCode", [.required "Postal Code is required"]),
    ("country", [.required "Country is required"]),
    ("phone", [.required "Phone is required"]) ]

/-- The error `validate` rejects with: every message, and the summary `message`. -/
structure ValidationError where
  errors : List String
  message : String
deriving DecidableEq, Repr

/-- The messages of the tests of one field that `value` fails. -/
def fieldErrors (isEmail : String → Bool) (tests : List StringTest) (value : Option String) :
    List String :=
  (tests.filter fun t => !t.passes isEmail value).map StringTest.message

/-- Every violation of the schema by `formData`, field by field. -/
def schemaErrors (isEmail : String → Bool) (formData : FormData) : List String :=
  schema.flatMap fun field => fieldErrors isEmail field.2 (formData field.1)

/-- Line 50: `.validate(formData, { abortEarly: false })`. Every test of every field runs;
with no violation the promise resolves, otherwise it rejects with a `ValidationError`
holding all the messages, whose `message` is the single message or the count summary. -/
def validate (isEmail : String → Bool) (formData : FormData) : Except ValidationError Unit :=
  match schemaErrors isEmail formData with
  | [] => .ok ()
  | [single] => .error { errors := [single], message := single }
  | errors => .error { errors := errors, message := toString errors.length ++ " errors occurred" }

/-! ## The collaborators of `handleSubmit` -/

/-- The card input handle `elements.getElement(CardElement)` returns (`none` is `null`). -/
abbrev CardHandle := Option Nat

/-- Line 58-63: the `address` object of the billing details. -/
structure Address where
  line1 : Option String
  city : Option String
  postal_code : Option String
  country : Option String

/-- Line 55-65: the `billing_details` object. -/
structure BillingDetailsArg where
  name : Option String
  email : Option String
  address : Address
  phone : Option String

/-- Line 52-66: the argument of `stripe.createPaymentMethod`. -/
structure PaymentMethodData where
  type : String
  card : CardHandle
  billing_details : BillingDetailsArg

/-- The `error` of the tokenization response. -/
structure StripeError where
  message : String
deriving DecidableEq, Repr

/-- The `paymentMethod` of the tokenization response. -/
structure PaymentMethod where
  id : String
deriving DecidableEq, Repr

/-- What `createPaymentMethod` resolves with: `{ error?, paymentMethod? }`. -/
structure PaymentMethodResult where
  error : Option StripeError
  paymentMethod : Option PaymentMethod
deriving DecidableEq, Repr

/-- Line 72-78: the JSON body posted to the checkout service. -/
structure CheckoutBody where
  paymentMethodId : String
  amount : Option String
  currency : String
  billingDetails : FormData
  email : Option String

/-- The side effects of `handleSubmit`, in the order they happen. -/
inductive Effect where
  | preventDefault
  | createPaymentMethod (data : PaymentMethodData)
  | post (url : String) (body : CheckoutBody)
  | alert (message : String)
  | push (path : String)

/-- Everything `handleSubmit` reads that is not component state: the hooks' values, the
behaviour of the two remote services, and the built-ins the source relies on. A promise
that rejects, and a call that throws, is an `Except.error` with the error's `message`. -/
structure Env where
  /-- `useStripe()`: `none` while the library has not loaded. -/
  stripe : Option (PaymentMethodData → Except String PaymentMethodResult)
  /-- `useElements()`: `none` while not loaded, else what `getElement(CardElement)` returns. -/
  elements : Option CardHandle
  /-- `axios.post(url, body)`: resolves on a 2xx status, rejects otherwise. -/
  post : String → CheckoutBody → Except String Unit
  /-- The e-mail pattern of the validation library. -/
  isEmail : String → Bool
  /-- The message of the `TypeError` thrown when a property of `null` or `undefined` is
  read, given the expression read. -/
  typeErrorMessage : String → String
  /-- The built-in `Number::toString`. -/
  numberToString : Number → String
  /-- `useSelector((state) => state.cartReducer).cartItems`; `none` is a nullish value. -/
  cartItems : Option (List CartItem)

/-- Line 72: the fixed endpoint. -/
def checkoutUrl : String := "https://ottomonbackend-l-f8a1.vercel.app/checkout"

/-- Line 52-66: the argument `handleSubmit` passes to `stripe.createPaymentMethod`. -/
def paymentMethodData (formData : FormData) (card : CardHandle) : PaymentMethodData :=
  { type := "card"
    card := card
    billing_details :=
      { name := formData "name"
        email := formData "email"
        address :=
          { line1 := formData "addressLine1"
            city := formData "city"
            postal_code := formData "postalCode"
            country := formData "country" }
        phone := formData "phone" } }

/-- Line 72-78: the body `handleSubmit` posts, with `amount: totalPrice`. -/
def checkoutBody (env : Env) (formData : FormData) (paymentMethod : PaymentMethod) :
    CheckoutBody :=
  { paymentMethodId := paymentMethod.id
    amount := totalPrice env.numberToString env.cartItems
    currency := "usd"
    billingDetails := formData
    email := formData "email" }

/-- Line 41-81: the body of the `try` block, run on the `formData` and `totalPrice` of the
render that created the handler. The result is the list of effects performed and whether
the block completed (`ok`) or threw (`error message`). -/
def tryBlock (env : Env) (formData : FormData) : List Effect × Except String Unit :=
  match validate env.isEmail formData with
  | .error e => ([], .error e.message)
  | .ok () =>
    match env.stripe with
    | none => ([], .error (env.typeErrorMessage "stripe.createPaymentMethod"))
    | some createPaymentMethod =>
      match env.elements with
      | none => ([], .error (env.typeErrorMessage "elements.getElement"))
      | some card =>
        let data := paymentMethodData formData card
        match createPaymentMethod data with
        | .error message => ([.createPaymentMethod data], .error message)
        | .ok result =>
          match result.error with
          | some error => ([.createPaymentMethod data], .error error.message)
          | none =>
            match result.paymentMethod with
            | none =>
              ([.createPaymentMethod data], .error (env.typeErrorMessage "paymentMethod.id"))
            | some paymentMethod =>
              let body := checkoutBody env formData paymentMethod
              match env.post checkoutUrl body with
              | .error message =>
                ([.createPaymentMethod data, .post checkoutUrl body], .error message)
              | .ok () =>
                ([.createPaymentMethod data, .post checkoutUrl body,
                  .alert "Payment processed successfully", .push "/PaymentMethod"], .ok ())

/-- Line 36-87: `handleSubmit`. Returns the component state after the handler has run and
the effects it performed. The handler itself never throws: everything that can is inside
the `try`, whose `catch` stores the message. -/
def handleSubmit (env : Env) (st : State) : State × List Effect :=
  let st := setError st none
  let st := setLoading st true
  let run := tryBlock env st.formData
  let st :=
    match run.2 with
    | .ok () => st
    | .error message => setError st (some message)
  (setLoading st false, Effect.preventDefault :: run.1)

/-- Whether an effect is a request to the checkout service. -/
def Effect.isPost : Effect → Bool
  | .post _ _ => true
  | _ => false

/-- Whether an effect is a call of the tokenization provider. -/
def Effect.isCreatePaymentMethod : Effect → Bool
  | .createPaymentMethod _ => true
  | _ => false

/-- Whether an effect is a navigation. -/
def Effect.isPush : Effect → Bool
  | .push _ => true
  | _ => false

/-! ## Vocabulary of the specification -/

/-- The seven required fields of the billing details. -/
def requiredFields : List String :=
  ["name", "email", "addressLine1", "city", "postalCode", "country", "phone"]

/-- A field value that is present and not the empty string. -/
def isFilled : Option String → Bool
  | none => false
  | some s => decide (s ≠ "")

/-- A field value that is present and matches the e-mail pattern. -/
def isEmailValue (isEmail : String → Bool) : Option String → Bool
  | none => false
  | some s => isEmail s

/-- Billing details that pass the full schema: each of the seven fields is present and
non-empty, and the e-mail matches the pattern. -/
def FullyValid (isEmail : String → Bool) (formData : FormData) : Prop :=
  (∀ key ∈ requiredFields, isFilled (formData key) = true) ∧
    isEmailValue isEmail (formData "email") = true

instance (isEmail : String → Bool) (formData : FormData) :
    Decidable (FullyValid isEmail formData) := by
  unfold FullyValid; infer_instance

/-- The rules of the schema a record breaks: the pairs of a key and a test of that key
which the value under the key fails. -/
def brokenRules (isEmail : String → Bool) (formData : FormData) : List (String × StringTest) :=
  (schema.flatMap fun field => field.2.map fun t => (field.1, t)).filter
    fun rule => !rule.2.passes isEmail (formData rule.1)

/-- The price of an item in cents, for a price with at most two digits after the point
(`0` for an absent price). -/
def priceCents (item : CartItem) : Nat :=
  match item.price with
  | none => 0
  | some d => d.mantissa * 10 ^ (2 - d.scale)

/-- The exact sum of the prices of a cart, in cents. -/
def totalCents (items : List CartItem) : Nat := (items.map priceCents).sum

/-- Every price of the cart has at most two digits after the point. -/
def AtMostTwoDecimals (items : List CartItem) : Prop :=
  ∀ item ∈ items, ∀ d, item.price = some d → d.scale ≤ 2

instance (items : List CartItem) : Decidable (AtMostTwoDecimals items) :=
  decidable_of_iff (∀ item ∈ items, (item.price.all fun d => decide (d.scale ≤ 2)) = true) <| by
    unfold AtMostTwoDecimals
    refine forall₂_congr fun item _ => ?_
    cases item.price <;> simp

/-- The amount of `cents` hundredths written as a decimal with exactly two digits after the
point: the integer part in decimal, a point, and the two digits of the hundredths. -/
def twoDecimals (cents : Nat) : String :=
  Nat.repr (cents / 100) ++ "." ++
    String.mk [Nat.digitChar (cents % 100 / 10), Nat.digitChar (cents % 10)]

/-- The tokenization provider answered the request of this form with no error and a
payment method. -/
def Tokenized (env : Env) (formData : FormData) (paymentMethod : PaymentMethod) : Prop :=
  ∃ createPaymentMethod card, env.stripe = some createPaymentMethod ∧ env.elements = some card ∧
    createPaymentMethod (paymentMethodData formData card) =
      .ok { error := none, paymentMethod := some paymentMethod }

/-- The ways a run of `handleSubmit` on `formData` fails, each with the message of the
failure: the validation rejects, the provider is not loaded, its promise rejects, it reports
an error, it returns neither an error nor a payment method, or the checkout request fails. -/
inductive Failure (env : Env) (formData : FormData) : String → Prop where
  | validation (e : ValidationError) :
      validate env.isEmail formData = .error e → Failure env formData e.message
  | stripeNotLoaded :
      FullyValid env.isEmail formData → env.stripe = none →
      Failure env formData (env.typeErrorMessage "stripe.createPaymentMethod")
  | elementsNotLoaded (createPaymentMethod) :
      FullyValid env.isEmail formData → env.stripe = some createPaymentMethod →
      env.elements = none →
      Failure env formData (env.typeErrorMessage "elements.getElement")
  | tokenizationRejected (createPaymentMethod) (card : CardHandle) (message : String) :
      FullyValid env.isEmail formData → env.stripe = some createPaymentMethod →
      env.elements = some card →
      createPaymentMethod (paymentMethodData formData card) = .error message →
      Failure env formData message
  | tokenizationError (createPaymentMethod) (card : CardHandle) (result : PaymentMethodResult)
      (error : StripeError) :
      FullyValid env.isEmail formData → env.stripe = some createPaymentMethod →
      env.elements = some card →
      createPaymentMethod (paymentMethodData formData card) = .ok result →
      result.error = some error →
      Failure env formData error.message
  | noPaymentMethod (createPaymentMethod) (card : CardHandle) (result : PaymentMethodResult) :
      FullyValid env.isEmail formData → env.stripe = some createPaymentMethod →
      env.elements = some card →
      createPaymentMethod (paymentMethodData formData card) = .ok result →
      result.error = none → result.paymentMethod = none →
      Failure env formData (env.typeErrorMessage "paymentMethod.id")
  | checkout (paymentMethod : PaymentMethod) (message : String) :
      FullyValid env.isEmail formData → Tokenized env formData paymentMethod →
      env.post checkoutUrl (checkoutBody env formData paymentMethod) = .error message →
      Failure env formData message

/-- An e-mail pattern in the shape validation libraries use (the HTML one): a non-empty
local part of letters, digits and `.!#$%&*+/=?^_-` style punctuation, an `@`, and
dot-separated labels of letters, digits and inner hyphens. Used to instantiate `isEmail`. -/
def sampleIsEmail (s : String) : Bool :=
  let isAlnum : Char → Bool := fun c => c.isAlphanum
  let isLocal : Char → Bool := fun c => c.isAlphanum || c ∈ ".!#$%&*+/=?^_-~|".toList
  let isLabel : List Char → Bool := fun l =>
    match l with
    | [] => false
    | c :: _ => isAlnum c && isAlnum (l.getLast?.getD c) && l.all (fun x => isAlnum x || x = '-')
      && decide (l.length ≤ 63)
  match s.toList.span (· ≠ '@') with
  | (_, []) => false
  | (localPart, _ :: domain) =>
    !localPart.isEmpty && localPart.all isLocal
      && ((domain.splitOn '.').all isLabel)

/-- A sample environment: every collaborator succeeds. -/
def sampleEnv : Env where
  stripe := some fun _ => .ok { error := none, paymentMethod := some { id := "pm_123" } }
  elements := some (some 0)
  post := fun _ _ => .ok ()
  isEmail := sampleIsEmail
  typeErrorMessage := fun e => "Cannot read properties of undefined (" ++ e ++ ")"
  numberToString := fun _ => "Infinity"
  cartItems := some [⟨some ⟨1999, 2⟩⟩, ⟨some ⟨500, 2⟩⟩]

/-- A sample environment whose tokenization provider reports an error. -/
def decliningEnv : Env :=
  { sampleEnv with
    stripe := some fun _ => .ok { error := some { message := "card declined" },
                                  paymentMethod := none } }

/-- A sample environment whose checkout service answers with HTTP 500. -/
def failingCheckoutEnv : Env :=
  { sampleEnv with post := fun _ _ => .error "Request failed with status code 500" }

/-- A sample environment whose cart is the single item priced `70368744177664.01`. -/
def largePriceEnv : Env :=
  { sampleEnv with cartItems := some [⟨some ⟨7036874417766401, 2⟩⟩] }

/-- A sample valid form. -/
def sampleFormData : FormData := fun key =>
  match key with
  | "name" => some "Ada Lovelace"
  | "email" => some "ada@example.com"
  | "addressLine1" => some "12 St James Square"
  | "city" => some "London"
  | "postalCode" => some "SW1Y 4JH"
  | "country" => some "GB"
  | "phone" => some "02079460000"
  | _ => none

/-- The sample form with a name of three spaces. -/
def blankNameFormData : FormData := fun key =>
  if key = "name" then some "   " else sampleFormData key

/-- The sample form with the e-mail `abc@`. -/
def badEmailFormData : FormData := fun key =>
  if key = "email" then some "abc@" else sampleFormData key

/-! ## The arithmetic of `totalPrice` -/

theorem log2Fuel_spec (fuel n : Nat) (hf : n ≤ fuel) (hn : 0 < n) :
    2 ^ log2Fuel fuel n ≤ n ∧ n < 2 ^ (log2Fuel fuel n + 1) := by
  induction fuel generalizing n with
  | zero => omega
  | succ fuel ih =>
    unfold log2Fuel
    by_cases h2 : n < 2
    · simp only [h2, if_true]
      omega
    · simp only [h2, if_false]
      have hpos : 0 < n / 2 := Nat.div_pos (by omega) (by decide)
      have hle : n / 2 ≤ fuel := by omega
      obtain ⟨h1, h3⟩ := ih (n / 2) hle hpos
      constructor
      · rw [pow_succ]; omega
      · rw [pow_succ]; omega

theorem roundHalfEven_cases (num den : Nat) :
    roundHalfEven num den = num / den ∨ roundHalfEven num den = num / den + 1 := by
  unfold roundHalfEven
  dsimp only
  split
  · left; rfl
  · split
    · right; rfl
    · split
      · left; rfl
      · right; rfl

theorem roundHalfEven_err (num den : Nat) (hden : 0 < den) :
    |(roundHalfEven num den : ℚ) - (num : ℚ) / den| ≤ 1 / 2 := by
  have hd : (0 : ℚ) < den := by exact_mod_cast hden
  have hdm := Nat.div_add_mod num den
  have hml := Nat.mod_lt num hden
  have hnum : (num : ℚ) = den * (num / den : Nat) + (num % den : Nat) := by exact_mod_cast hdm.symm
  rw [abs_le]
  unfold roundHalfEven
  dsimp only
  have key : ∀ x : ℚ, x - (num : ℚ) / den = (x * den - num) / den := by
    intro x; field_simp
  split
  · next h =>
    have h' : (2 : ℚ) * (num % den : Nat) < den := by exact_mod_cast h
    rw [key, le_div_iff₀ hd, div_le_iff₀ hd]
    constructor <;> nlinarith
  · split
    · next h1 h =>
      have h' : (den : ℚ) < 2 * (num % den : Nat) := by exact_mod_cast h
      have hml' : ((num % den : Nat) : ℚ) < den := by exact_mod_cast hml
      push_cast
      rw [key, le_div_iff₀ hd, div_le_iff₀ hd]
      constructor <;> nlinarith
    · next h1 h2 =>
      have he : 2 * (num % den) = den := by omega
      have h' : (2 : ℚ) * (num % den : Nat) = den := by exact_mod_cast he
      split
      · rw [key, le_div_iff₀ hd, div_le_iff₀ hd]
        constructor <;> nlinarith
      · push_cast
        rw [key, le_div_iff₀ hd, div_le_iff₀ hd]
        constructor <;> nlinarith


theorem two_zpow_split (z : ℤ) : (2 : ℚ) ^ z = (2 : ℚ) ^ z.toNat / (2 : ℚ) ^ (-z).toNat := by
  rcases le_total 0 z with h | h
  · have h1 : (-z).toNat = 0 := by omega
    rw [h1, pow_zero, div_one, ← zpow_natCast, Int.toNat_of_nonneg h]
  · have h1 : z.toNat = 0 := by omega
    have h2 : ((-z).toNat : ℤ) = -z := Int.toNat_of_nonneg (by omega)
    rw [h1, pow_zero, ← zpow_natCast, h2, zpow_neg, one_div, inv_inv]

theorem floorLog2_spec (n d : Nat) (hn : 0 < n) (hd : 0 < d) :
    (2 : ℚ) ^ floorLog2 n d ≤ (n : ℚ) / d ∧ (n : ℚ) / d < (2 : ℚ) ^ (floorLog2 n d + 1) := by
  obtain ⟨ha1, ha2⟩ := log2Fuel_spec n n le_rfl hn
  obtain ⟨hb1, hb2⟩ := log2Fuel_spec d d le_rfl hd
  have hdq : (0 : ℚ) < d := by exact_mod_cast hd
  have ha1' : (2 : ℚ) ^ (log2Fuel n n : ℤ) ≤ n := by rw [zpow_natCast]; exact_mod_cast ha1
  have ha2' : (n : ℚ) < (2 : ℚ) ^ ((log2Fuel n n : ℤ) + 1) := by
    rw [zpow_add_one₀ (by norm_num), zpow_natCast]; exact_mod_cast (by rw [← pow_succ]; exact ha2)
  have hb1' : (2 : ℚ) ^ (log2Fuel d d : ℤ) ≤ d := by rw [zpow_natCast]; exact_mod_cast hb1
  have hb2' : (d : ℚ) < (2 : ℚ) ^ ((log2Fuel d d : ℤ) + 1) := by
    rw [zpow_add_one₀ (by norm_num), zpow_natCast]; exact_mod_cast (by rw [← pow_succ]; exact hb2)
  set a : ℤ := (log2Fuel n n : ℤ) with ha
  set b : ℤ := (log2Fuel d d : ℤ) with hb
  have hpa : (0 : ℚ) < 2 ^ a := zpow_pos (by norm_num) _
  have hpb : (0 : ℚ) < 2 ^ b := zpow_pos (by norm_num) _
  have hest : (2 : ℚ) ^ (a - b) = 2 ^ a / 2 ^ b := zpow_sub₀ (by norm_num) _ _
  unfold floorLog2
  dsimp only
  rw [← ha, ← hb]
  have hcond : (d * 2 ^ (a - b).toNat ≤ n * 2 ^ (-(a - b)).toNat) ↔
      (2 : ℚ) ^ (a - b) ≤ (n : ℚ) / d := by
    rw [two_zpow_split (a - b), div_le_div_iff₀ (by positivity) hdq]
    constructor
    · intro h
      have : ((d * 2 ^ (a - b).toNat : Nat) : ℚ) ≤ ((n * 2 ^ (-(a - b)).toNat : Nat) : ℚ) := by
        exact_mod_cast h
      push_cast at this
      linarith
    · intro h
      have : ((d * 2 ^ (a - b).toNat : Nat) : ℚ) ≤ ((n * 2 ^ (-(a - b)).toNat : Nat) : ℚ) := by
        push_cast
        linarith
      exact_mod_cast this
  split
  · next h =>
    refine ⟨hcond.1 h, ?_⟩
    rw [zpow_add_one₀ (by norm_num), hest, div_lt_iff₀ hdq]
    rw [zpow_add_one₀ (by norm_num)] at ha2'
    have : (2 : ℚ) ^ a / 2 ^ b * 2 * d = 2 ^ a * 2 * (d / 2 ^ b) := by field_simp
    rw [this]
    have h1 : (1 : ℚ) ≤ d / 2 ^ b := by rw [le_div_iff₀ hpb]; linarith
    nlinarith
  · next h =>
    have hlt : (n : ℚ) / d < 2 ^ (a - b) := lt_of_not_le (fun hc => h (hcond.2 hc))
    rw [sub_add_cancel]
    refine ⟨?_, hlt⟩
    rw [zpow_sub_one₀ (by norm_num), hest, le_div_iff₀ hdq]
    rw [zpow_add_one₀ (by norm_num)] at hb2'
    have : (2 : ℚ) ^ a / 2 ^ b * 2⁻¹ * d = 2 ^ a * (d / (2 ^ b * 2)) := by field_simp
    rw [this]
    have h1 : (d : ℚ) / (2 ^ b * 2) ≤ 1 := by rw [div_le_iff₀ (by positivity)]; linarith
    nlinarith


theorem roundToDouble_err (n d : Nat) (hn : 0 < n) (hd : 0 < d)
    (hlo : (2 : ℚ) ^ (-1022 : ℤ) ≤ (n : ℚ) / d) (hhi : (n : ℚ) / d < (2 : ℚ) ^ (1023 : ℤ)) :
    ∃ m e, roundToDouble n d = .finite m e ∧
      |(m : ℚ) * (2 : ℚ) ^ e - (n : ℚ) / d| ≤ (n : ℚ) / d / 2 ^ 53 := by
  obtain ⟨hE1, hE2⟩ := floorLog2_spec n d hn hd
  set E := floorLog2 n d with hE
  have hElo : -1022 ≤ E := by
    have : (2 : ℚ) ^ (-1022 : ℤ) < (2 : ℚ) ^ (E + 1) := lt_of_le_of_lt hlo hE2
    have := (zpow_lt_zpow_iff_right₀ (by norm_num : (1 : ℚ) < 2)).1 this
    omega
  have hEhi : E < 1023 := by
    have : (2 : ℚ) ^ E < (2 : ℚ) ^ (1023 : ℤ) := lt_of_le_of_lt hE1 hhi
    exact (zpow_lt_zpow_iff_right₀ (by norm_num : (1 : ℚ) < 2)).1 this
  have hq : max E (-1022) - 52 = E - 52 := by rw [max_eq_left hElo]
  have hfin : ¬ (971 < E - 52 ∨ (E - 52 = 971 ∧
      roundHalfEven (n * 2 ^ (-(E - 52)).toNat) (d * 2 ^ (E - 52).toNat) = 2 ^ 53)) := by
    omega
  refine ⟨roundHalfEven (n * 2 ^ (-(E - 52)).toNat) (d * 2 ^ (E - 52).toNat), E - 52, ?_, ?_⟩
  · unfold roundToDouble
    rw [if_neg (by omega)]
    dsimp only
    rw [← hE, hq, if_neg hfin]
  · have hden : 0 < d * 2 ^ (E - 52).toNat := Nat.mul_pos hd (by positivity)
    have herr := roundHalfEven_err (n * 2 ^ (-(E - 52)).toNat) (d * 2 ^ (E - 52).toNat) hden
    set m := roundHalfEven (n * 2 ^ (-(E - 52)).toNat) (d * 2 ^ (E - 52).toNat) with hm
    have hdq : (0 : ℚ) < d := by exact_mod_cast hd
    have hpq : (0 : ℚ) < 2 ^ (E - 52) := zpow_pos (by norm_num) _
    have hsplit := two_zpow_split (E - 52)
    have hp1 : (0 : ℚ) < 2 ^ (E - 52).toNat := by positivity
    have hp2 : (0 : ℚ) < 2 ^ (-(E - 52)).toNat := by positivity
    have hscaled : (((n * 2 ^ (-(E - 52)).toNat : Nat) : ℚ)) / ((d * 2 ^ (E - 52).toNat : Nat) : ℚ)
        = (n : ℚ) / d / 2 ^ (E - 52) := by
      rw [hsplit]
      push_cast
      field_simp
    rw [hscaled] at herr
    have hEq : (2 : ℚ) ^ (E - 52) = 2 ^ E / 2 ^ 52 := by
      rw [zpow_sub₀ (by norm_num)]
      norm_num
    have hfac : (m : ℚ) * 2 ^ (E - 52) - (n : ℚ) / d
        = ((m : ℚ) - (n : ℚ) / d / 2 ^ (E - 52)) * 2 ^ (E - 52) := by
      field_simp
      ring
    rw [hfac, abs_mul, abs_of_pos hpq]
    calc |(m : ℚ) - (n : ℚ) / d / 2 ^ (E - 52)| * 2 ^ (E - 52)
        ≤ 1 / 2 * 2 ^ (E - 52) := by
          exact mul_le_mul_of_nonneg_right herr hpq.le
      _ = 2 ^ E / 2 ^ 53 := by rw [hEq]; ring
      _ ≤ (n : ℚ) / d / 2 ^ 53 := by
          exact div_le_div_of_nonneg_right hE1 (by positivity)

theorem roundToDouble_rel (n d : Nat) (hd : 0 < d)
    (h : (n : ℚ) / d = 0 ∨ ((1 : ℚ) / 200 ≤ (n : ℚ) / d ∧ (n : ℚ) / d ≤ 2 ^ 60)) :
    ∃ m e, roundToDouble n d = .finite m e ∧
      |(m : ℚ) * (2 : ℚ) ^ e - (n : ℚ) / d| ≤ (n : ℚ) / d / 2 ^ 53 := by
  have hdq : (0 : ℚ) < d := by exact_mod_cast hd
  rcases Nat.eq_zero_or_pos n with hn | hn
  · subst hn
    exact ⟨0, 0, by simp [roundToDouble], by simp⟩
  · have hpos : (0 : ℚ) < (n : ℚ) / d := div_pos (by exact_mod_cast hn) hdq
    rcases h with h | ⟨h1, h2⟩
    · rw [h] at hpos; exact absurd hpos (lt_irrefl _)
    · apply roundToDouble_err n d hn hd
      · refine le_trans ?_ h1
        rw [zpow_neg, show (1022 : ℤ) = ((1022 : ℕ) : ℤ) from rfl, zpow_natCast, inv_eq_one_div,
          div_le_div_iff₀ (by positivity) (by norm_num)]
        have : (2 : ℚ) ^ 8 ≤ 2 ^ 1022 := pow_le_pow_right₀ (by norm_num) (by norm_num)
        linarith
      · refine lt_of_le_of_lt h2 ?_
        rw [show (1023 : ℤ) = ((1023 : ℕ) : ℤ) from rfl, zpow_natCast]
        exact pow_lt_pow_right₀ (by norm_num) (by norm_num)

theorem add_finite (m₁ m₂ : Nat) (e₁ e₂ : Int) :
    ∃ n d, 0 < d ∧ (Number.finite m₁ e₁).add (.finite m₂ e₂) = roundToDouble n d ∧
      (n : ℚ) / d = (m₁ : ℚ) * 2 ^ e₁ + (m₂ : ℚ) * 2 ^ e₂ := by
  refine ⟨(m₁ * 2 ^ (e₁ - min e₁ e₂).toNat + m₂ * 2 ^ (e₂ - min e₁ e₂).toNat)
      * 2 ^ (min e₁ e₂).toNat, 2 ^ (-(min e₁ e₂)).toNat, by positivity, rfl, ?_⟩
  set e := min e₁ e₂ with he
  have h1 : ((e₁ - e).toNat : ℤ) = e₁ - e := Int.toNat_of_nonneg (by omega)
  have h2 : ((e₂ - e).toNat : ℤ) = e₂ - e := Int.toNat_of_nonneg (by omega)
  have hp1 : (2 : ℚ) ^ (e₁ - e).toNat = 2 ^ e₁ / 2 ^ e := by
    rw [← zpow_natCast, h1, zpow_sub₀ (by norm_num)]
  have hp2 : (2 : ℚ) ^ (e₂ - e).toNat = 2 ^ e₂ / 2 ^ e := by
    rw [← zpow_natCast, h2, zpow_sub₀ (by norm_num)]
  have hpe : (0 : ℚ) < 2 ^ e := zpow_pos (by norm_num) _
  push_cast
  rw [mul_div_assoc, ← two_zpow_split e, hp1, hp2]
  field_simp

theorem step_err (S p A x A' : ℚ) (k : ℕ) (hS : 0 ≤ S) (hp : 0 ≤ p)
    (hk : (k : ℚ) * S ≤ 2 ^ 50 * S)
    (hA : |A - S| ≤ 3 * k * S / 2 ^ 53) (hx : |x - p| ≤ p / 2 ^ 53)
    (hA' : |A' - (A + x)| ≤ (A + x) / 2 ^ 53) :
    |A' - (S + p)| ≤ 3 * ((k : ℚ) + 1) * (S + p) / 2 ^ 53 := by
  have hkS : (0 : ℚ) ≤ k * S := mul_nonneg (Nat.cast_nonneg k) hS
  have hkp : (0 : ℚ) ≤ k * p := mul_nonneg (Nat.cast_nonneg k) hp
  rw [abs_le] at hA hx hA' ⊢
  obtain ⟨hA1, hA2⟩ := hA
  obtain ⟨hx1, hx2⟩ := hx
  obtain ⟨hA'1, hA'2⟩ := hA'
  have e1 : 3 * (k : ℚ) * S / 2 ^ 53 = (k * S) * (3 / 2 ^ 53) := by ring
  have e2 : 3 * ((k : ℚ) + 1) * (S + p) / 2 ^ 53
      = (k * S) * (3 / 2 ^ 53) + (k * p) * (3 / 2 ^ 53) + S * (3 / 2 ^ 53) + p * (3 / 2 ^ 53) := by
    ring
  rw [e1] at hA1 hA2
  rw [e2]
  norm_num at hA1 hA2 hx1 hx2 hA'1 hA'2 hk ⊢
  constructor <;> linarith

theorem step_range (S p A x : ℚ) (k : ℕ) (hS : S = 0 ∨ 1 / 100 ≤ S) (hp : p = 0 ∨ 1 / 100 ≤ p)
    (hk : (k : ℚ) * S ≤ 2 ^ 50 * S) (hsum : S + p ≤ 2 ^ 50)
    (hA : |A - S| ≤ 3 * k * S / 2 ^ 53) (hx : |x - p| ≤ p / 2 ^ 53) :
    A + x = 0 ∨ (1 / 200 ≤ A + x ∧ A + x ≤ 2 ^ 60) := by
  have hS0 : 0 ≤ S := by rcases hS with h | h <;> linarith
  have hp0 : 0 ≤ p := by rcases hp with h | h <;> linarith
  rw [abs_le] at hA hx
  obtain ⟨hA1, hA2⟩ := hA
  obtain ⟨hx1, hx2⟩ := hx
  have e1 : 3 * (k : ℚ) * S / 2 ^ 53 = (k * S) * (3 / 2 ^ 53) := by ring
  rw [e1] at hA1 hA2
  have hkS : (0 : ℚ) ≤ k * S := mul_nonneg (Nat.cast_nonneg k) hS0
  norm_num at hA1 hA2 hx1 hx2 hk hsum ⊢
  rcases hS with hS | hS
  · rcases hp with hp | hp
    · left
      subst hS hp
      norm_num at hA1 hA2 hx1 hx2
      linarith
    · right
      constructor <;> linarith
  · right
    constructor <;> linarith

theorem parseFloat_err (item : CartItem) (hs : ∀ d, item.price = some d → d.scale ≤ 2)
    (hc : priceCents item < 2 ^ 50) :
    ∃ m e, parseFloat item = .finite m e ∧
      |(m : ℚ) * (2 : ℚ) ^ e - (priceCents item : ℚ) / 100| ≤ (priceCents item : ℚ) / 100 / 2 ^ 53 := by
  unfold parseFloat priceCents at *
  cases hprice : item.price with
  | none => exact ⟨0, 0, rfl, by simp⟩
  | some d =>
    have hscale := hs d hprice
    rw [hprice] at hc
    dsimp only at hc ⊢
    have hratio : ((d.mantissa : ℕ) : ℚ) / ((10 ^ d.scale : ℕ) : ℚ)
        = ((d.mantissa * 10 ^ (2 - d.scale) : ℕ) : ℚ) / 100 := by
      have h100 : (100 : ℚ) = 10 ^ (2 - d.scale) * 10 ^ d.scale := by
        rw [← pow_add, Nat.sub_add_cancel hscale]; norm_num
      push_cast
      rw [h100]
      field_simp
      ring
    have hcq : ((d.mantissa * 10 ^ (2 - d.scale) : ℕ) : ℚ) < 2 ^ 50 := by exact_mod_cast hc
    have hrange : ((d.mantissa : ℕ) : ℚ) / ((10 ^ d.scale : ℕ) : ℚ) = 0 ∨
        ((1 : ℚ) / 200 ≤ ((d.mantissa : ℕ) : ℚ) / ((10 ^ d.scale : ℕ) : ℚ) ∧
          ((d.mantissa : ℕ) : ℚ) / ((10 ^ d.scale : ℕ) : ℚ) ≤ 2 ^ 60) := by
      rw [hratio]
      rcases Nat.eq_zero_or_pos (d.mantissa * 10 ^ (2 - d.scale)) with h0 | hpos
      · left; rw [h0]; simp
      · right
        have : (1 : ℚ) ≤ ((d.mantissa * 10 ^ (2 - d.scale) : ℕ) : ℚ) := by exact_mod_cast hpos
        constructor
        · linarith
        · norm_num at hcq ⊢; linarith
    obtain ⟨m, e, hm, herr⟩ := roundToDouble_rel d.mantissa (10 ^ d.scale) (by positivity) hrange
    rw [hratio] at herr
    exact ⟨m, e, hm, herr⟩

theorem totalCents_cons (item : CartItem) (rest : List CartItem) :
    totalCents (item :: rest) = priceCents item + totalCents rest := by
  simp [totalCents]

theorem foldl_err (items : List CartItem) (hs : AtMostTwoDecimals items) :
    ∀ (acc : Number) (k C m : ℕ) (e : ℤ), acc = .finite m e →
      |(m : ℚ) * (2 : ℚ) ^ e - (C : ℚ) / 100| ≤ 3 * k * ((C : ℚ) / 100) / 2 ^ 53 →
      (k + items.length) * (C + totalCents items) < 2 ^ 50 →
      ∃ m' e', items.foldl (fun acc item => acc.add (parseFloat item)) acc = .finite m' e' ∧
        |(m' : ℚ) * (2 : ℚ) ^ e' - ((C + totalCents items : ℕ) : ℚ) / 100|
          ≤ 3 * ((k + items.length : ℕ) : ℚ) * (((C + totalCents items : ℕ) : ℚ) / 100) / 2 ^ 53 := by
  induction items with
  | nil =>
    intro acc k C m e hacc herr _
    exact ⟨m, e, hacc, by simpa [totalCents] using herr⟩
  | cons item rest ih =>
    intro acc k C m e hacc herr hbound
    rw [totalCents_cons, List.length_cons] at hbound
    have hs' : AtMostTwoDecimals rest := fun i hi => hs i (List.mem_cons_of_mem _ hi)
    have hitem := hs item (List.mem_cons_self _ _)
    set c := priceCents item with hc
    set T := totalCents rest with hT
    -- size facts
    have hpos : 1 ≤ k + (rest.length + 1) := by omega
    have htot : C + (c + T) < 2 ^ 50 := lt_of_le_of_lt (Nat.le_mul_of_pos_left _ hpos) hbound
    have hk : (k : ℚ) * ((C : ℚ) / 100) ≤ 2 ^ 50 * ((C : ℚ) / 100) := by
      rcases Nat.eq_zero_or_pos C with h0 | hCpos
      · rw [h0]; simp
      · have hk' : k < 2 ^ 50 := by
          have h1 : k * 1 ≤ (k + (rest.length + 1)) * (C + (c + T)) :=
            Nat.mul_le_mul (by omega) (by omega)
          omega
        have : (k : ℚ) ≤ 2 ^ 50 := by exact_mod_cast hk'.le
        exact mul_le_mul_of_nonneg_right this (by positivity)
    obtain ⟨mx, ex, hx, hxerr⟩ := parseFloat_err item hitem (by omega)
    obtain ⟨n, d, hd, hadd, hnd⟩ := add_finite m mx e ex
    have hSr : (C : ℚ) / 100 = 0 ∨ 1 / 100 ≤ (C : ℚ) / 100 := by
      rcases Nat.eq_zero_or_pos C with h0 | hCpos
      · left; rw [h0]; simp
      · right
        have : (1 : ℚ) ≤ C := by exact_mod_cast hCpos
        linarith
    have hpr : (c : ℚ) / 100 = 0 ∨ 1 / 100 ≤ (c : ℚ) / 100 := by
      rcases Nat.eq_zero_or_pos c with h0 | hcpos
      · left; rw [h0]; simp
      · right
        have : (1 : ℚ) ≤ c := by exact_mod_cast hcpos
        linarith
    have hsum : (C : ℚ) / 100 + (c : ℚ) / 100 ≤ 2 ^ 50 := by
      have : ((C + c : ℕ) : ℚ) ≤ 2 ^ 50 := by exact_mod_cast (by omega : C + c ≤ 2 ^ 50)
      push_cast at this
      linarith
    have hrange := step_range _ _ _ _ k hSr hpr hk hsum herr hxerr
    rw [← hnd] at hrange
    obtain ⟨m', e', hm', herr'⟩ := roundToDouble_rel n d hd hrange
    rw [hnd] at herr'
    have hstep := step_err _ _ _ _ _ k (by positivity) (by positivity) hk herr hxerr herr'
    have hacc' : acc.add (parseFloat item) = .finite m' e' := by rw [hacc, hx, hadd, hm']
    have hstep' : |(m' : ℚ) * (2 : ℚ) ^ e' - ((C + c : ℕ) : ℚ) / 100|
        ≤ 3 * ((k + 1 : ℕ) : ℚ) * (((C + c : ℕ) : ℚ) / 100) / 2 ^ 53 := by
      push_cast
      rw [add_div]
      exact hstep
    have hbound' : (k + 1 + rest.length) * (C + c + totalCents rest) < 2 ^ 50 := by
      have : (k + 1 + rest.length) * (C + c + totalCents rest)
          = (k + (rest.length + 1)) * (C + (c + T)) := by
        rw [hT]; ring
      rw [this]
      exact hbound
    obtain ⟨m'', e'', hfold, hfin⟩ := ih hs' _ (k + 1) (C + c) m' e' hacc' hstep' hbound'
    refine ⟨m'', e'', by rw [List.foldl_cons]; exact hfold, ?_⟩
    have e1 : C + c + totalCents rest = C + (c + T) := by omega
    have e2 : k + 1 + rest.length = k + (rest.length + 1) := by omega
    rw [e1, e2] at hfin
    exact hfin

theorem toDigitsCore_append (b : Nat) : ∀ (fuel n : Nat) (ds : List Char),
    Nat.toDigitsCore b fuel n ds = Nat.toDigitsCore b fuel n [] ++ ds := by
  intro fuel
  induction fuel with
  | zero => intro n ds; rfl
  | succ fuel ih =>
    intro n ds
    unfold Nat.toDigitsCore
    dsimp only
    split
    · rfl
    · rw [ih (n / b) (Nat.digitChar (n % b) :: ds), ih (n / b) [Nat.digitChar (n % b)]]
      simp

theorem toDigitsCore_fuel (b : Nat) (hb : 2 ≤ b) : ∀ (fuel₁ fuel₂ n : Nat) (ds : List Char),
    n < fuel₁ → n < fuel₂ → Nat.toDigitsCore b fuel₁ n ds = Nat.toDigitsCore b fuel₂ n ds := by
  intro fuel₁
  induction fuel₁ with
  | zero => intro fuel₂ n ds h; omega
  | succ fuel₁ ih =>
    intro fuel₂ n ds h1 h2
    cases fuel₂ with
    | zero => omega
    | succ fuel₂ =>
      unfold Nat.toDigitsCore
      dsimp only
      split
      · rfl
      · next hne =>
        have hpos : 0 < n := by
          rcases Nat.eq_zero_or_pos n with h0 | h0
          · subst h0; simp at hne
          · exact h0
        have hlt : n / b < n := Nat.div_lt_self hpos (by omega)
        exact ih fuel₂ (n / b) _ (by omega) (by omega)

theorem toDigits_small (n : Nat) (h : n < 10) : Nat.toDigits 10 n = [Nat.digitChar n] := by
  unfold Nat.toDigits Nat.toDigitsCore
  have h1 : n / 10 = 0 := Nat.div_eq_of_lt h
  have h2 : n % 10 = n := Nat.mod_eq_of_lt h
  simp [h1, h2]

theorem toDigits_step (n : Nat) (h : 10 ≤ n) :
    Nat.toDigits 10 n = Nat.toDigits 10 (n / 10) ++ [Nat.digitChar (n % 10)] := by
  have hne : n / 10 ≠ 0 := by omega
  have hlt : n / 10 < n := by omega
  conv_lhs => unfold Nat.toDigits Nat.toDigitsCore
  dsimp only
  rw [if_neg hne, toDigitsCore_append]
  congr 1
  exact toDigitsCore_fuel 10 (by decide) _ _ _ _ hlt (Nat.lt_succ_self _)

theorem toFixedDigits_eq (n : Nat) : toFixedDigits n = twoDecimals n := by
  unfold toFixedDigits twoDecimals Nat.repr
  rcases Nat.lt_or_ge n 10 with h1 | h1
  · have e1 : n / 100 = 0 := by omega
    have e2 : n % 100 / 10 = 0 := by omega
    have e3 : n % 10 = n := by omega
    rw [toDigits_small n h1, e1, e2, e3]
    rfl
  · rcases Nat.lt_or_ge n 100 with h2 | h2
    · have e1 : n / 100 = 0 := by omega
      have e2 : n % 100 / 10 = n / 10 := by omega
      rw [toDigits_step n h1, toDigits_small (n / 10) (by omega), e1, e2]
      rfl
    · have e2 : n % 100 / 10 = n / 10 % 10 := by omega
      have e3 : n / 10 / 10 = n / 100 := by omega
      rw [toDigits_step n h1, toDigits_step (n / 10) (by omega), e2, e3]
      have hlen : 0 < (Nat.toDigits 10 (n / 100)).length := by
        rcases Nat.lt_or_ge (n / 100) 10 with h3 | h3
        · rw [toDigits_small _ h3]; simp
        · rw [toDigits_step _ h3]; simp
      generalize Nat.toDigits 10 (n / 100) = ds at hlen
      have hnot : ¬ (ds ++ [Nat.digitChar (n / 10 % 10)] ++ [Nat.digitChar (n % 10)]).length ≤ 2 := by
        simp only [List.length_append, List.length_singleton]; omega
      simp only [hnot, if_false]
      have hl : (ds ++ [Nat.digitChar (n / 10 % 10)] ++ [Nat.digitChar (n % 10)]).length - 2
          = ds.length := by simp
      rw [hl]
      simp [List.take_append_eq_append_take, List.drop_append_eq_append_drop, String.ext_iff,
        List.asString]

theorem toFixed2_of_close (numberToString : Number → String) (m : ℕ) (e : ℤ) (C : ℕ)
    (hclose : |(m : ℚ) * (2 : ℚ) ^ e - (C : ℚ) / 100| < 1 / 200) (hC : C < 2 ^ 50) :
    toFixed2 numberToString (.finite m e) = toFixedDigits C := by
  have hp1 : (0 : ℚ) < 2 ^ e.toNat := by positivity
  have hp2 : (0 : ℚ) < 2 ^ (-e).toNat := by positivity
  have hv : (m : ℚ) * (2 : ℚ) ^ e
      = ((m * 2 ^ e.toNat : ℕ) : ℚ) / ((2 ^ (-e).toNat : ℕ) : ℚ) := by
    rw [two_zpow_split e]
    push_cast
    ring
  rw [hv, abs_lt] at hclose
  obtain ⟨h1, h2⟩ := hclose
  set num := m * 2 ^ e.toNat with hnum
  set den := 2 ^ (-e).toNat with hden
  have hdpos : 0 < den := by positivity
  have hdq : (0 : ℚ) < (den : ℚ) := by exact_mod_cast hdpos
  have hCq : (C : ℚ) < 2 ^ 50 := by exact_mod_cast hC
  rw [lt_sub_iff_add_lt, lt_div_iff₀ hdq] at h1
  rw [sub_lt_iff_lt_add, div_lt_iff₀ hdq] at h2
  have hbranch : ¬ (10 ^ 21 * den ≤ num) := by
    intro hcon
    have : ((10 ^ 21 * den : ℕ) : ℚ) ≤ (num : ℚ) := by exact_mod_cast hcon
    push_cast at this
    have hCd : (C : ℚ) * den ≤ 2 ^ 50 * den := mul_le_mul_of_nonneg_right hCq.le hdq.le
    norm_num at this hCd
    linarith
  have hdiv : (200 * num + den) / (2 * den) = C := by
    apply Nat.div_eq_of_lt_le
    · have : ((C * (2 * den) : ℕ) : ℚ) ≤ ((200 * num + den : ℕ) : ℚ) := by
        push_cast
        nlinarith
      exact_mod_cast this
    · have : ((200 * num + den : ℕ) : ℚ) < (((C + 1) * (2 * den) : ℕ) : ℚ) := by
        push_cast
        nlinarith
      exact_mod_cast this
  unfold toFixed2
  dsimp only
  rw [← hnum, ← hden, if_neg hbranch, hdiv]

/-- The total of a cart of prices with at most two decimals, whose size times total in
cents stays below `2 ^ 50`: the binary64 sum is within half a cent of the exact sum, so
`toFixed(2)` writes the exact sum. -/
theorem totalPrice_of_cart (numberToString : Number → String) (items : List CartItem)
    (hs : AtMostTwoDecimals items) (hb : items.length * totalCents items < 2 ^ 50) :
    totalPrice numberToString (some items) = some (twoDecimals (totalCents items)) := by
  obtain ⟨m, e, hfold, herr⟩ := foldl_err items hs (.finite 0 0) 0 0 0 0 rfl (by simp)
    (by simpa using hb)
  simp only [Nat.zero_add] at herr
  have hT : totalCents items < 2 ^ 50 := by
    rcases Nat.eq_zero_or_pos items.length with h0 | hpos
    · have : items = [] := List.length_eq_zero.1 h0
      subst this
      simp [totalCents]
    · exact lt_of_le_of_lt (Nat.le_mul_of_pos_left _ hpos) hb
  have hclose : |(m : ℚ) * (2 : ℚ) ^ e - (totalCents items : ℚ) / 100| < 1 / 200 := by
    refine lt_of_le_of_lt herr ?_
    have hq : ((items.length * totalCents items : ℕ) : ℚ) < 2 ^ 50 := by exact_mod_cast hb
    push_cast at hq
    have e1 : 3 * (items.length : ℚ) * ((totalCents items : ℚ) / 100) / 2 ^ 53
        = ((items.length : ℚ) * (totalCents items : ℚ)) * (3 / (100 * 2 ^ 53)) := by ring
    rw [e1]
    norm_num at hq ⊢
    linarith
  unfold totalPrice
  rw [Option.map_some', hfold, toFixed2_of_close numberToString m e _ hclose hT, toFixedDigits_eq]

/-- Prices with three decimals: the total follows the binary64 value, not a decimal rounding
rule of the exact sum. `1.005` gives `1.00` (its binary64 value lies below `1.005`), while
`10.005 + 5` gives `15.01` (the binary64 sum lies above `15.005`). -/
theorem totalPrice_three_decimals (numberToString : Number → String) :
    totalPrice numberToString (some [⟨some ⟨1005, 3⟩⟩]) = some "1.00" ∧
      totalPrice numberToString (some [⟨some ⟨10005, 3⟩⟩, ⟨some ⟨5, 0⟩⟩]) = some "15.01" := by
  constructor <;> rfl

/-! ## Validation -/

theorem passes_required (isEmail : String → Bool) (message : String) (value : Option String) :
    (StringTest.required message).passes isEmail value = isFilled value := by
  cases value <;> rfl

theorem passes_email_of_filled (isEmail : String → Bool) (message : String)
    (value : Option String) (h : isFilled value = true) :
    (StringTest.email message).passes isEmail value = isEmailValue isEmail value := by
  cases value with
  | none => simp [isFilled] at h
  | some s =>
    have hs : s ≠ "" := by simpa [isFilled] using h
    simp [StringTest.passes, isEmailValue, hs]

theorem fieldErrors_eq_nil_iff (isEmail : String → Bool) (tests : List StringTest)
    (value : Option String) :
    fieldErrors isEmail tests value = [] ↔ ∀ t ∈ tests, t.passes isEmail value = true := by
  simp [fieldErrors, List.filter_eq_nil_iff]

theorem schemaErrors_eq_nil_iff (isEmail : String → Bool) (formData : FormData) :
    schemaErrors isEmail formData = [] ↔ FullyValid isEmail formData := by
  simp only [schemaErrors, List.flatMap_eq_nil_iff, fieldErrors_eq_nil_iff]
  simp only [schema, FullyValid, requiredFields, List.mem_cons, List.mem_singleton,
    List.not_mem_nil, or_false, forall_eq_or_imp, forall_eq, passes_required]
  constructor
  · rintro ⟨h1, ⟨h2, h2'⟩, h3, h4, h5, h6, h7⟩
    exact ⟨⟨h1, h2', h3, h4, h5, h6, h7⟩, by rw [← passes_email_of_filled _ _ _ h2']; exact h2⟩
  · rintro ⟨⟨h1, h2, h3, h4, h5, h6, h7⟩, h8⟩
    exact ⟨h1, ⟨by rw [passes_email_of_filled _ _ _ h2]; exact h8, h2⟩, h3, h4, h5, h6, h7⟩

theorem validate_ok_iff (isEmail : String → Bool) (formData : FormData) :
    validate isEmail formData = .ok () ↔ FullyValid isEmail formData := by
  rw [← schemaErrors_eq_nil_iff]
  unfold validate
  split <;> simp_all

theorem validate_error_of_not_valid (isEmail : String → Bool) (formData : FormData)
    (h : ¬ FullyValid isEmail formData) :
    ∃ e, validate isEmail formData = .error e ∧ e.errors = schemaErrors isEmail formData := by
  rw [← schemaErrors_eq_nil_iff] at h
  unfold validate
  split
  · contradiction
  · next single heq => exact ⟨_, rfl, heq.symm⟩
  · exact ⟨_, rfl, rfl⟩

/-! ## Runs of `handleSubmit` -/

theorem handleSubmit_formData (env : Env) (st : State) :
    (handleSubmit env st).1.formData = st.formData := by
  unfold handleSubmit
  dsimp only [setError, setLoading]
  split <;> rfl

theorem handleSubmit_loading (env : Env) (st : State) :
    (handleSubmit env st).1.loading = false := by
  unfold handleSubmit
  dsimp only [setError, setLoading]

theorem handleSubmit_error (env : Env) (st : State) :
    (handleSubmit env st).1.error =
      match (tryBlock env st.formData).2 with
      | .ok () => none
      | .error message => some message := by
  unfold handleSubmit
  dsimp only [setError, setLoading]
  split <;> rfl

theorem handleSubmit_effects (env : Env) (st : State) :
    (handleSubmit env st).2 = Effect.preventDefault :: (tryBlock env st.formData).1 := by
  rfl

theorem tryBlock_of_not_valid (env : Env) (formData : FormData)
    (h : ¬ FullyValid env.isEmail formData) :
    ∃ e, validate env.isEmail formData = .error e ∧
      e.errors = schemaErrors env.isEmail formData ∧
      tryBlock env formData = ([], .error e.message) := by
  obtain ⟨e, he, herr⟩ := validate_error_of_not_valid env.isEmail formData h
  refine ⟨e, he, herr, ?_⟩
  unfold tryBlock
  rw [he]

/-- The run of the `try` block on valid billing details with a provider that answered with
no error and a payment method: exactly the tokenization call, then the checkout request,
and on its success the alert and the navigation. -/
theorem tryBlock_of_tokenized (env : Env) (formData : FormData) (paymentMethod : PaymentMethod)
    (card : CardHandle) (hcard : env.elements = some card)
    (hv : FullyValid env.isEmail formData) (ht : Tokenized env formData paymentMethod) :
    tryBlock env formData =
      match env.post checkoutUrl (checkoutBody env formData paymentMethod) with
      | .error message =>
        ([.createPaymentMethod (paymentMethodData formData card),
          .post checkoutUrl (checkoutBody env formData paymentMethod)], .error message)
      | .ok () =>
        ([.createPaymentMethod (paymentMethodData formData card),
          .post checkoutUrl (checkoutBody env formData paymentMethod),
          .alert "Payment processed successfully", .push "/PaymentMethod"], .ok ()) := by
  obtain ⟨create, card', hs, he, hc⟩ := ht
  rw [hcard] at he
  cases he
  unfold tryBlock
  rw [(validate_ok_iff _ _).2 hv]
  simp only [hs, hcard, hc]

/-- Classification of the runs of the `try` block: it throws `message` exactly when one of
the failures of `Failure` occurs with that message. -/
theorem tryBlock_error_iff (env : Env) (formData : FormData) (message : String) :
    (tryBlock env formData).2 = .error message ↔ Failure env formData message := by
  constructor
  · intro h
    by_cases hv : FullyValid env.isEmail formData
    · have hok := (validate_ok_iff _ _).2 hv
      unfold tryBlock at h
      rw [hok] at h
      dsimp only at h
      split at h
      · next hs => cases h; exact .stripeNotLoaded hv hs
      · next create hs =>
        split at h
        · next hel => cases h; exact .elementsNotLoaded create hv hs hel
        · next card hel =>
          split at h
          · next msg hc => cases h; exact .tokenizationRejected create card _ hv hs hel hc
          · next result hc =>
            split at h
            · next error herr => cases h; exact .tokenizationError create card result error hv hs hel hc herr
            · next herr =>
              split at h
              · next hpm => cases h; exact .noPaymentMethod create card result hv hs hel hc herr hpm
              · next pm hpm =>
                have htok : Tokenized env formData pm :=
                  ⟨create, card, hs, hel, by rw [hc]; cases result; simp_all⟩
                split at h
                · next msg hp => cases h; exact .checkout pm _ hv htok hp
                · cases h
    · obtain ⟨e, he, -, hrun⟩ := tryBlock_of_not_valid env formData hv
      rw [hrun] at h
      cases h
      exact .validation e he
  · intro h
    cases h with
    | validation e he => unfold tryBlock; rw [he]
    | stripeNotLoaded hv hs => unfold tryBlock; rw [(validate_ok_iff _ _).2 hv]; simp only [hs]
    | elementsNotLoaded create hv hs hel =>
      unfold tryBlock; rw [(validate_ok_iff _ _).2 hv]; simp only [hs, hel]
    | tokenizationRejected create card msg hv hs hel hc =>
      unfold tryBlock; rw [(validate_ok_iff _ _).2 hv]; simp only [hs, hel, hc]
    | tokenizationError create card result error hv hs hel hc herr =>
      unfold tryBlock; rw [(validate_ok_iff _ _).2 hv]; simp only [hs, hel, hc, herr]
    | noPaymentMethod create card result hv hs hel hc herr hpm =>
      unfold tryBlock; rw [(validate_ok_iff _ _).2 hv]; simp only [hs, hel, hc, herr, hpm]
    | checkout pm msg hv htok hp =>
      obtain ⟨create, card, hs, hel, hc⟩ := id htok
      rw [tryBlock_of_tokenized env formData pm card hel hv htok, hp]

theorem tryBlock_post_mem (env : Env) (formData : FormData) (eff : Effect)
    (h : eff ∈ (tryBlock env formData).1) (hp : eff.isPost = true) :
    FullyValid env.isEmail formData ∧ ∃ pm, Tokenized env formData pm ∧
      eff = .post checkoutUrl (checkoutBody env formData pm) := by
  by_cases hv : FullyValid env.isEmail formData
  · refine ⟨hv, ?_⟩
    have hok := (validate_ok_iff _ _).2 hv
    unfold tryBlock at h
    rw [hok] at h
    dsimp only at h
    split at h
    · simp at h
    · next create hs =>
      split at h
      · simp at h
      · next card hel =>
        split at h
        · simp at h; subst h; simp [Effect.isPost] at hp
        · next result hc =>
          split at h
          · simp at h; subst h; simp [Effect.isPost] at hp
          · next herr =>
            split at h
            · simp at h; subst h; simp [Effect.isPost] at hp
            · next pm hpm =>
              refine ⟨pm, ⟨create, card, hs, hel, by rw [hc]; cases result; simp_all⟩, ?_⟩
              split at h
              · simp only [List.mem_cons, List.mem_singleton, List.not_mem_nil, or_false] at h
                rcases h with rfl | rfl
                · simp [Effect.isPost] at hp
                · rfl
              · simp only [List.mem_cons, List.mem_singleton, List.not_mem_nil, or_false] at h
                rcases h with rfl | rfl | rfl | rfl
                · simp [Effect.isPost] at hp
                · rfl
                · simp [Effect.isPost] at hp
                · simp [Effect.isPost] at hp
  · obtain ⟨e, -, -, hrun⟩ := tryBlock_of_not_valid env formData hv
    rw [hrun] at h
    simp at h

theorem tryBlock_of_tokenizationError (env : Env) (formData : FormData)
    (createPaymentMethod : PaymentMethodData → Except String PaymentMethodResult)
    (card : CardHandle) (result : PaymentMethodResult) (error : StripeError)
    (hv : FullyValid env.isEmail formData) (hs : env.stripe = some createPaymentMethod)
    (hel : env.elements = some card)
    (hc : createPaymentMethod (paymentMethodData formData card) = .ok result)
    (herr : result.error = some error) :
    tryBlock env formData =
      ([.createPaymentMethod (paymentMethodData formData card)], .error error.message) := by
  unfold tryBlock
  rw [(validate_ok_iff _ _).2 hv]
  simp only [hs, hel, hc, herr]

theorem tryBlock_push_of_error (env : Env) (formData : FormData) (message : String)
    (h : (tryBlock env formData).2 = .error message) :
    ∀ eff ∈ (tryBlock env formData).1, eff.isPush = false := by
  by_cases hv : FullyValid env.isEmail formData
  · have hok := (validate_ok_iff _ _).2 hv
    revert h
    unfold tryBlock
    rw [hok]
    dsimp only
    cases env.stripe with
    | none => simp
    | some create =>
      cases env.elements with
      | none => simp
      | some card =>
        dsimp only
        cases create (paymentMethodData formData card) with
        | error msg => simp [Effect.isPush]
        | ok result =>
          dsimp only
          cases result.error with
          | some err => simp [Effect.isPush]
          | none =>
            dsimp only
            cases result.paymentMethod with
            | none => simp [Effect.isPush]
            | some pm =>
              dsimp only
              cases env.post checkoutUrl (checkoutBody env formData pm) with
              | error msg => simp [Effect.isPush]
              | ok u => simp
  · obtain ⟨e, -, -, hrun⟩ := tryBlock_of_not_valid env formData hv
    rw [hrun]
    simp

theorem errorRegion_of_error (st : State) (message : String) (h : st.error = some message) :
    errorRegion st = message := by
  unfold errorRegion
  rw [h]
  by_cases hm : message = "" <;> simp [hm]

theorem brokenRules_messages (isEmail : String → Bool) (formData : FormData) :
    schemaErrors isEmail formData =
      (brokenRules isEmail formData).map fun rule => rule.2.message := by
  unfold schemaErrors brokenRules fieldErrors
  induction schema with
  | nil => rfl
  | cons field rest ih =>
    rw [List.flatMap_cons, List.flatMap_cons, List.filter_append, List.map_append, ih]
    congr 1
    generalize field.2 = tests
    induction tests with
    | nil => rfl
    | cons t ts iht =>
      by_cases hp : t.passes isEmail (formData field.1) = true
      · simp [List.filter_cons, hp, iht]
      · simp [List.filter_cons, hp, iht]

theorem brokenRules_eq_nil_iff (isEmail : String → Bool) (formData : FormData) :
    brokenRules isEmail formData = [] ↔ FullyValid isEmail formData := by
  rw [← schemaErrors_eq_nil_iff, brokenRules_messages]
  simp

theorem not_valid_iff (isEmail : String → Bool) (formData : FormData) :
    ¬ FullyValid isEmail formData ↔
      ((∃ key ∈ requiredFields, formData key = none ∨ formData key = some "") ∨
        isEmailValue isEmail (formData "email") = false) := by
  have hfill : ∀ v : Option String, isFilled v = true ↔ ¬ (v = none ∨ v = some "") := by
    intro v
    cases v <;> simp [isFilled]
  unfold FullyValid
  constructor
  · intro h
    by_contra hcon
    push_neg at hcon
    apply h
    refine ⟨fun key hkey => (hfill _).2 ?_, by simpa using hcon.2⟩
    have := hcon.1 key hkey
    tauto
  · rintro (⟨key, hkey, hk⟩ | he) ⟨h1, h2⟩
    · exact (hfill _).1 (h1 key hkey) hk
    · rw [h2] at he
      cases he

/-! ## The claims -/

/-- C1: `handleSubmit` sends a request to the checkout service exactly when the billing
details pass the full schema validation (`validate` resolves, that is every field is filled
and the e-mail matches) and the tokenization provider answered with no error and a payment
method; in every other run the trace holds no checkout request. -/
theorem handleSubmit_posts_iff_valid_and_tokenized (env : Env) (st : State) :
    (∃ eff ∈ (handleSubmit env st).2, eff.isPost = true) ↔
      (validate env.isEmail st.formData = .ok () ∧ FullyValid env.isEmail st.formData ∧
        ∃ pm, Tokenized env st.formData pm) := by
  rw [handleSubmit_effects]
  constructor
  · rintro ⟨eff, hmem, hp⟩
    rcases List.mem_cons.1 hmem with rfl | hmem
    · simp [Effect.isPost] at hp
    · obtain ⟨hv, pm, ht, -⟩ := tryBlock_post_mem env st.formData eff hmem hp
      exact ⟨(validate_ok_iff _ _).2 hv, hv, pm, ht⟩
  · rintro ⟨-, hv, pm, ht⟩
    obtain ⟨create, card, hs, hel, hc⟩ := id ht
    refine ⟨.post checkoutUrl (checkoutBody env st.formData pm), ?_, rfl⟩
    rw [tryBlock_of_tokenized env st.formData pm card hel hv ht]
    split <;> simp

/-- C2: when one of the seven required fields is the empty string, `handleSubmit` fails with
the validation error (the error state holds its message, so it is not null) and the
tokenization provider is not called. -/
theorem handleSubmit_empty_field_fails (env : Env) (st : State) (key : String)
    (hkey : key ∈ requiredFields) (hempty : st.formData key = some "") :
    (∃ e, validate env.isEmail st.formData = .error e ∧
        (handleSubmit env st).1.error = some e.message) ∧
      (handleSubmit env st).1.error ≠ none ∧
      ∀ eff ∈ (handleSubmit env st).2, eff.isCreatePaymentMethod = false := by
  have hv : ¬ FullyValid env.isEmail st.formData := by
    intro h
    have := h.1 key hkey
    rw [hempty] at this
    simp [isFilled] at this
  obtain ⟨e, he, -, hrun⟩ := tryBlock_of_not_valid env st.formData hv
  have herr : (handleSubmit env st).1.error = some e.message := by
    rw [handleSubmit_error, hrun]
  refine ⟨⟨e, he, herr⟩, by rw [herr]; simp, ?_⟩
  rw [handleSubmit_effects, hrun]
  simp [Effect.isCreatePaymentMethod]

theorem handleSubmit_empty_field_fails_witness :
    "name" ∈ requiredFields ∧ initialState.formData "name" = some "" ∧
      ((∃ e, validate sampleEnv.isEmail initialState.formData = .error e ∧
          (handleSubmit sampleEnv initialState).1.error = some e.message) ∧
        (handleSubmit sampleEnv initialState).1.error ≠ none ∧
        ∀ eff ∈ (handleSubmit sampleEnv initialState).2, eff.isCreatePaymentMethod = false) :=
  ⟨by decide, rfl, handleSubmit_empty_field_fails sampleEnv initialState "name" (by decide) rfl⟩

/-- C3: with fully valid billing details and a tokenization response that carries an error
with message `m`, `handleSubmit` ends with the error state equal to `m`, the error region
shows exactly `m`, and no request goes to the checkout service. -/
theorem handleSubmit_tokenization_error (env : Env) (st : State)
    (createPaymentMethod : PaymentMethodData → Except String PaymentMethodResult)
    (card : CardHandle) (result : PaymentMethodResult) (error : StripeError)
    (hv : FullyValid env.isEmail st.formData) (hs : env.stripe = some createPaymentMethod)
    (hel : env.elements = some card)
    (hc : createPaymentMethod (paymentMethodData st.formData card) = .ok result)
    (herr : result.error = some error) :
    (handleSubmit env st).1.error = some error.message ∧
      errorRegion (handleSubmit env st).1 = error.message ∧
      ∀ eff ∈ (handleSubmit env st).2, eff.isPost = false := by
  have hrun := tryBlock_of_tokenizationError env st.formData createPaymentMethod card result
    error hv hs hel hc herr
  have he : (handleSubmit env st).1.error = some error.message := by
    rw [handleSubmit_error, hrun]
  refine ⟨he, errorRegion_of_error _ _ he, ?_⟩
  rw [handleSubmit_effects, hrun]
  simp [Effect.isPost]

theorem handleSubmit_tokenization_error_witness :
    FullyValid decliningEnv.isEmail sampleFormData ∧
      (handleSubmit decliningEnv ⟨none, false, sampleFormData⟩).1.error = some "card declined" ∧
      errorRegion (handleSubmit decliningEnv ⟨none, false, sampleFormData⟩).1 = "card declined" ∧
      ∀ eff ∈ (handleSubmit decliningEnv ⟨none, false, sampleFormData⟩).2, eff.isPost = false :=
  ⟨by decide,
    handleSubmit_tokenization_error decliningEnv ⟨none, false, sampleFormData⟩ _ (some 0)
      { error := some { message := "card declined" }, paymentMethod := none }
      { message := "card declined" } (by decide) rfl rfl rfl rfl⟩

set_option maxRecDepth 100000 in
/-- C4 (the claim as stated fails): for the cart of the single price `70368744177664.01` the
handler posts one request, whose amount is `70368744177664.02`, while the sum of the prices
written with two decimals is `70368744177664.01`: the nearest binary64 value of the price
is `70368744177664.015625`. -/
theorem large_price_amount_is_off_by_a_cent :
    AtMostTwoDecimals [⟨some ⟨7036874417766401, 2⟩⟩] ∧
      (handleSubmit largePriceEnv ⟨none, false, sampleFormData⟩).2 =
        [.preventDefault, .createPaymentMethod (paymentMethodData sampleFormData (some 0)),
          .post checkoutUrl (checkoutBody largePriceEnv sampleFormData { id := "pm_123" }),
          .alert "Payment processed successfully", .push "/PaymentMethod"] ∧
      (checkoutBody largePriceEnv sampleFormData { id := "pm_123" }).amount
        = some "70368744177664.02" ∧
      twoDecimals (totalCents [⟨some ⟨7036874417766401, 2⟩⟩]) = "70368744177664.01" ∧
      (checkoutBody largePriceEnv sampleFormData { id := "pm_123" }).amount
        ≠ some (twoDecimals (totalCents [⟨some ⟨7036874417766401, 2⟩⟩])) := by
  refine ⟨by decide, rfl, by decide, by decide, by decide⟩

/-- C4 (amended): for every cart whose prices are non-negative decimals with at most two
digits after the point, and whose number of items times its total in cents is below
`2 ^ 50`, `totalPrice` is the exact sum of the prices written with exactly two digits after
the point, and that string is the amount of every request `handleSubmit` posts. -/
theorem handleSubmit_amount_is_exact_total (env : Env) (st : State) (items : List CartItem)
    (hcart : env.cartItems = some items) (hs : AtMostTwoDecimals items)
    (hb : items.length * totalCents items < 2 ^ 50) :
    totalPrice env.numberToString env.cartItems = some (twoDecimals (totalCents items)) ∧
      ∀ url body, Effect.post url body ∈ (handleSubmit env st).2 →
        body.amount = some (twoDecimals (totalCents items)) := by
  have htotal := totalPrice_of_cart env.numberToString items hs hb
  rw [← hcart] at htotal
  refine ⟨htotal, fun url body hmem => ?_⟩
  rw [handleSubmit_effects] at hmem
  rcases List.mem_cons.1 hmem with h | h
  · cases h
  · obtain ⟨-, pm, -, heq⟩ := tryBlock_post_mem env st.formData _ h rfl
    cases heq
    exact htotal

theorem handleSubmit_amount_is_exact_total_witness :
    sampleEnv.cartItems = some [⟨some ⟨1999, 2⟩⟩, ⟨some ⟨500, 2⟩⟩] ∧
      AtMostTwoDecimals [⟨some ⟨1999, 2⟩⟩, ⟨some ⟨500, 2⟩⟩] ∧
      [(⟨some ⟨1999, 2⟩⟩ : CartItem), ⟨some ⟨500, 2⟩⟩].length *
        totalCents [⟨some ⟨1999, 2⟩⟩, ⟨some ⟨500, 2⟩⟩] < 2 ^ 50 ∧
      twoDecimals (totalCents [⟨some ⟨1999, 2⟩⟩, ⟨some ⟨500, 2⟩⟩]) = "24.99" ∧
      twoDecimals (totalCents []) = "0.00" ∧
      (totalPrice sampleEnv.numberToString sampleEnv.cartItems
          = some (twoDecimals (totalCents [⟨some ⟨1999, 2⟩⟩, ⟨some ⟨500, 2⟩⟩])) ∧
        ∀ url body,
          Effect.post url body ∈ (handleSubmit sampleEnv ⟨none, false, sampleFormData⟩).2 →
            body.amount = some (twoDecimals (totalCents [⟨some ⟨1999, 2⟩⟩, ⟨some ⟨500, 2⟩⟩]))) :=
  ⟨rfl, by decide, by decide, by decide, by decide,
    handleSubmit_amount_is_exact_total sampleEnv ⟨none, false, sampleFormData⟩
      [⟨some ⟨1999, 2⟩⟩, ⟨some ⟨500, 2⟩⟩] rfl (by decide) (by decide)⟩

/-- C5 (the claim as stated fails): a name of three spaces, which is empty after trimming,
passes the validation, and the run goes on to tokenize, post and navigate. -/
theorem whitespace_name_passes_validation :
    blankNameFormData "name" = some "   " ∧
      "   ".toList.all Char.isWhitespace = true ∧
      validate sampleEnv.isEmail blankNameFormData = .ok () ∧
      ((handleSubmit sampleEnv ⟨none, false, blankNameFormData⟩).2.map Effect.isPush)
        = [false, false, false, false, true] ∧
      (handleSubmit sampleEnv ⟨none, false, blankNameFormData⟩).1.error = none := by
  refine ⟨rfl, by decide, rfl, by decide, by decide⟩

/-- C5 (amended): every billing field is required to be non-empty, the value taken as typed,
without trimming. The validation fails exactly when some required field is absent or the
empty string, or the e-mail does not match the pattern; so a field of whitespace only
counts as non-empty. When the validation fails, submission halts: the error state is set
and no effect other than `preventDefault` happens. -/
theorem validate_required_without_trim (env : Env) (st : State) :
    ((∃ e, validate env.isEmail st.formData = .error e) ↔
        ((∃ key ∈ requiredFields, st.formData key = none ∨ st.formData key = some "") ∨
          isEmailValue env.isEmail (st.formData "email") = false)) ∧
      ((∃ e, validate env.isEmail st.formData = .error e) →
        (handleSubmit env st).1.error ≠ none ∧
          (handleSubmit env st).2 = [Effect.preventDefault]) := by
  have key : (∃ e, validate env.isEmail st.formData = .error e) ↔
      ¬ FullyValid env.isEmail st.formData := by
    constructor
    · rintro ⟨e, he⟩ hv
      rw [(validate_ok_iff _ _).2 hv] at he
      cases he
    · intro hv
      obtain ⟨e, he, -⟩ := validate_error_of_not_valid _ _ hv
      exact ⟨e, he⟩
  refine ⟨key.trans (not_valid_iff _ _), fun h => ?_⟩
  obtain ⟨e, -, -, hrun⟩ := tryBlock_of_not_valid env st.formData (key.1 h)
  constructor
  · rw [handleSubmit_error, hrun]
    simp
  · rw [handleSubmit_effects, hrun]

/-- C6: when the e-mail does not match the e-mail pattern, `handleSubmit` fails validation:
the error state holds the message of the validation error, and neither the tokenization
provider nor the checkout service is called (the only effect is `preventDefault`). When in
addition every field is non-empty, the message is exactly `Invalid email`. -/
theorem handleSubmit_invalid_email_fails (env : Env) (st : State) (email : String)
    (hemail : st.formData "email" = some email) (hbad : env.isEmail email = false) :
    (∃ e, validate env.isEmail st.formData = .error e ∧
        (handleSubmit env st).1.error = some e.message) ∧
      (handleSubmit env st).2 = [Effect.preventDefault] ∧
      ((∀ key ∈ requiredFields, isFilled (st.formData key) = true) →
        (handleSubmit env st).1.error = some "Invalid email") := by
  have hv : ¬ FullyValid env.isEmail st.formData := by
    intro h
    have := h.2
    rw [hemail] at this
    simp [isEmailValue, hbad] at this
  obtain ⟨e, he, herrs, hrun⟩ := tryBlock_of_not_valid env st.formData hv
  have herr : (handleSubmit env st).1.error = some e.message := by
    rw [handleSubmit_error, hrun]
  refine ⟨⟨e, he, herr⟩, by rw [handleSubmit_effects, hrun], fun hfilled => ?_⟩
  have hne : email ≠ "" := by
    have := hfilled "email" (by decide)
    rw [hemail] at this
    simpa [isFilled] using this
  have hlist : schemaErrors env.isEmail st.formData = ["Invalid email"] := by
    have h1 := hfilled "name" (by decide)
    have h2 := hfilled "email" (by decide)
    have h3 := hfilled "addressLine1" (by decide)
    have h4 := hfilled "city" (by decide)
    have h5 := hfilled "postalCode" (by decide)
    have h6 := hfilled "country" (by decide)
    have h7 := hfilled "phone" (by decide)
    simp only [schemaErrors, schema, fieldErrors, List.flatMap_cons, List.flatMap_nil,
      List.filter_cons, List.filter_nil, passes_required, h1, h2, h3, h4, h5, h6, h7]
    simp [StringTest.passes, hemail, hbad, hne, StringTest.message]
  rw [herr]
  have hval := he
  unfold validate at hval
  rw [hlist] at hval
  simp only [Except.error.injEq] at hval
  rw [← hval]

theorem handleSubmit_invalid_email_fails_witness :
    badEmailFormData "email" = some "abc@" ∧ sampleEnv.isEmail "abc@" = false ∧
      ((∃ e, validate sampleEnv.isEmail badEmailFormData = .error e ∧
          (handleSubmit sampleEnv ⟨none, false, badEmailFormData⟩).1.error = some e.message) ∧
        (handleSubmit sampleEnv ⟨none, false, badEmailFormData⟩).2 = [Effect.preventDefault] ∧
        ((∀ key ∈ requiredFields, isFilled (badEmailFormData key) = true) →
          (handleSubmit sampleEnv ⟨none, false, badEmailFormData⟩).1.error
            = some "Invalid email")) :=
  ⟨rfl, by decide,
    handleSubmit_invalid_email_fails sampleEnv ⟨none, false, badEmailFormData⟩ "abc@" rfl
      (by decide)⟩

/-- C7: `handleChange` produces a form state in which the field named by the event holds the
event's value and every other key reads as before; `error` and `loading` are untouched. The
previous `formData` is a value the function only reads: the spread builds a new object. -/
theorem handleChange_replaces_one_field (st : State) (e : ChangeEvent) :
    (handleChange st e).formData e.name = some e.value ∧
      (∀ key, key ≠ e.name → (handleChange st e).formData key = st.formData key) ∧
      (handleChange st e).error = st.error ∧ (handleChange st e).loading = st.loading := by
  refine ⟨by simp [handleChange, setFormData], fun key hkey => ?_, rfl, rfl⟩
  simp [handleChange, setFormData, hkey]

/-- C8: in every failing run of `handleSubmit` (validation failure, tokenization error or
rejection, checkout failure) the handler returns normally with the error state set to the
message of the failure and `loading = false`, so that the button of a loaded form is enabled
again; it performs no navigation and leaves `formData`, hence all seven fields, as it was. -/
theorem handleSubmit_failure_keeps_form (env : Env) (st : State) (message : String)
    (h : Failure env st.formData message) :
    (handleSubmit env st).1.error = some message ∧
      (handleSubmit env st).1.loading = false ∧
      buttonDisabled true (handleSubmit env st).1 = false ∧
      (∀ eff ∈ (handleSubmit env st).2, eff.isPush = false) ∧
      (handleSubmit env st).1.formData = st.formData ∧
      (∀ key ∈ requiredFields, (handleSubmit env st).1.formData key = st.formData key) := by
  have hrun := (tryBlock_error_iff env st.formData message).2 h
  refine ⟨?_, handleSubmit_loading env st, ?_, ?_, handleSubmit_formData env st, ?_⟩
  · rw [handleSubmit_error, hrun]
  · simp [buttonDisabled, handleSubmit_loading]
  · intro eff hmem
    rw [handleSubmit_effects] at hmem
    rcases List.mem_cons.1 hmem with rfl | hmem
    · rfl
    · exact tryBlock_push_of_error env st.formData message hrun eff hmem
  · intro key _
    rw [handleSubmit_formData]

theorem handleSubmit_failure_keeps_form_witness :
    Failure failingCheckoutEnv sampleFormData "Request failed with status code 500" ∧
      ((handleSubmit failingCheckoutEnv ⟨none, false, sampleFormData⟩).1.error
          = some "Request failed with status code 500" ∧
        (handleSubmit failingCheckoutEnv ⟨none, false, sampleFormData⟩).1.loading = false ∧
        buttonDisabled true (handleSubmit failingCheckoutEnv ⟨none, false, sampleFormData⟩).1
          = false ∧
        (∀ eff ∈ (handleSubmit failingCheckoutEnv ⟨none, false, sampleFormData⟩).2,
          eff.isPush = false) ∧
        (handleSubmit failingCheckoutEnv ⟨none, false, sampleFormData⟩).1.formData
          = sampleFormData ∧
        (∀ key ∈ requiredFields,
          (handleSubmit failingCheckoutEnv ⟨none, false, sampleFormData⟩).1.formData key
            = sampleFormData key)) :=
  have hf : Failure failingCheckoutEnv sampleFormData "Request failed with status code 500" :=
    .checkout { id := "pm_123" } _ (by decide) ⟨_, some 0, rfl, rfl, rfl⟩ rfl
  ⟨hf, handleSubmit_failure_keeps_form failingCheckoutEnv ⟨none, false, sampleFormData⟩ _ hf⟩

/-- C9: when the record breaks the schema, the validation does not stop at the first
violation: the validation error holds the message of every broken rule, one entry per broken
rule, and submission halts (the error state is set, no effect but `preventDefault`). -/
theorem validate_collects_every_violation (env : Env) (st : State)
    (h : brokenRules env.isEmail st.formData ≠ []) :
    ∃ e, validate env.isEmail st.formData = .error e ∧
      e.errors = (brokenRules env.isEmail st.formData).map (fun rule => rule.2.message) ∧
      e.errors.length = (brokenRules env.isEmail st.formData).length ∧
      (∀ field ∈ schema, ∀ t ∈ field.2, t.passes env.isEmail (st.formData field.1) = false →
        t.message ∈ e.errors) ∧
      (handleSubmit env st).1.error = some e.message ∧
      (handleSubmit env st).2 = [Effect.preventDefault] := by
  have hv : ¬ FullyValid env.isEmail st.formData := fun hv =>
    h ((brokenRules_eq_nil_iff _ _).2 hv)
  obtain ⟨e, he, herrs, hrun⟩ := tryBlock_of_not_valid env st.formData hv
  have hmsgs := herrs.trans (brokenRules_messages env.isEmail st.formData)
  refine ⟨e, he, hmsgs, by rw [hmsgs, List.length_map], ?_, ?_, ?_⟩
  · intro field hfield t ht hfail
    rw [hmsgs]
    refine List.mem_map.2 ⟨(field.1, t), ?_, rfl⟩
    unfold brokenRules
    refine List.mem_filter.2 ⟨List.mem_flatMap.2 ⟨field, hfield, List.mem_map.2 ⟨t, ht, rfl⟩⟩, ?_⟩
    simp [hfail]
  · rw [handleSubmit_error, hrun]
  · rw [handleSubmit_effects, hrun]

theorem validate_collects_every_violation_witness :
    brokenRules sampleEnv.isEmail initialState.formData ≠ [] ∧
      (brokenRules sampleEnv.isEmail initialState.formData).length = 7 ∧
      ∃ e, validate sampleEnv.isEmail initialState.formData = .error e ∧
        e.errors = (brokenRules sampleEnv.isEmail initialState.formData).map
          (fun rule => rule.2.message) ∧
        e.errors.length = (brokenRules sampleEnv.isEmail initialState.formData).length ∧
        (∀ field ∈ schema, ∀ t ∈ field.2,
          t.passes sampleEnv.isEmail (initialState.formData field.1) = false →
            t.message ∈ e.errors) ∧
        (handleSubmit sampleEnv initialState).1.error = some e.message ∧
        (handleSubmit sampleEnv initialState).2 = [Effect.preventDefault] :=
  ⟨by decide, by decide,
    validate_collects_every_violation sampleEnv initialState (by decide)⟩

/-- C10: from every prior component state, whatever `error` and `loading` an earlier attempt
left, `handleSubmit` on valid billing details with a provider that returns a payment method
and a checkout service that succeeds navigates to `/PaymentMethod` and to no other route,
and ends with `error = null` and `loading = false`; the result of a submit is the same for
every value of the prior `error` and `loading`. -/
theorem handleSubmit_succeeds_from_any_state (env : Env) (st : State) (pm : PaymentMethod)
    (hv : FullyValid env.isEmail st.formData) (ht : Tokenized env st.formData pm)
    (hp : env.post checkoutUrl (checkoutBody env st.formData pm) = .ok ()) :
    Effect.push "/PaymentMethod" ∈ (handleSubmit env st).2 ∧
      (∀ path, Effect.push path ∈ (handleSubmit env st).2 → path = "/PaymentMethod") ∧
      (handleSubmit env st).1.error = none ∧
      (handleSubmit env st).1.loading = false ∧
      ∀ error loading, handleSubmit env ⟨error, loading, st.formData⟩ = handleSubmit env st := by
  obtain ⟨create, card, hs, hel, hc⟩ := id ht
  have hrun := tryBlock_of_tokenized env st.formData pm card hel hv ht
  rw [hp] at hrun
  dsimp only at hrun
  refine ⟨?_, ?_, ?_, handleSubmit_loading env st, fun _ _ => rfl⟩
  · rw [handleSubmit_effects, hrun]
    simp
  · intro path hmem
    rw [handleSubmit_effects, hrun] at hmem
    simpa using hmem
  · rw [handleSubmit_error, hrun]

theorem handleSubmit_succeeds_from_any_state_witness :
    (handleSubmit failingCheckoutEnv ⟨none, false, sampleFormData⟩).1.error
        = some "Request failed with status code 500" ∧
      FullyValid sampleEnv.isEmail
        (handleSubmit failingCheckoutEnv ⟨none, false, sampleFormData⟩).1.formData ∧
      (Effect.push "/PaymentMethod" ∈ (handleSubmit sampleEnv
          (handleSubmit failingCheckoutEnv ⟨none, false, sampleFormData⟩).1).2 ∧
        (∀ path, Effect.push path ∈ (handleSubmit sampleEnv
          (handleSubmit failingCheckoutEnv ⟨none, false, sampleFormData⟩).1).2 →
            path = "/PaymentMethod") ∧
        (handleSubmit sampleEnv
          (handleSubmit failingCheckoutEnv ⟨none, false, sampleFormData⟩).1).1.error = none ∧
        (handleSubmit sampleEnv
          (handleSubmit failingCheckoutEnv ⟨none, false, sampleFormData⟩).1).1.loading = false ∧
        ∀ error loading,
          handleSubmit sampleEnv ⟨error, loading,
              (handleSubmit failingCheckoutEnv ⟨none, false, sampleFormData⟩).1.formData⟩
            = handleSubmit sampleEnv
              (handleSubmit failingCheckoutEnv ⟨none, false, sampleFormData⟩).1) :=
  ⟨rfl, by decide,
    handleSubmit_succeeds_from_any_state sampleEnv
      (handleSubmit failingCheckoutEnv ⟨none, false, sampleFormData⟩).1 { id := "pm_123" }
      (by decide) ⟨_, some 0, rfl, rfl, rfl⟩ rfl⟩

end PaymentForm
